import Mathlib

/-!
Verification of the usvfs `HookContext` (src/usvfs_dll/hookcontext.cpp).

Strings are modelled as lists of characters (`Str`); the case-insensitive
comparisons of the source (`boost::algorithm::iends_with`, `icontains`,
`stricmp`) lower each character before comparing, modelled by `lowerStr`.
-/

namespace USVFS

/-- A (narrow or wide) C++ string, modelled as a list of characters. -/
abbrev Str := List Char

/-- Case folding used by the case-insensitive comparisons of the source. -/
def lowerStr (s : Str) : Str := s.map Char.toLower

/-- `boost::algorithm::iends_with(input, test)`: `test` is a case-insensitive
suffix of `input`. -/
def iends_with (input test : Str) : Bool :=
  (lowerStr test).isSuffixOf (lowerStr input)

/-- One scan step of a naive substring search: does `small` occur
contiguously inside `big`? -/
def containsSub (small : Str) : Str → Bool
  | [] => small.isEmpty
  | c :: rest => small.isPrefixOf (c :: rest) || containsSub small rest

/-- `boost::algorithm::icontains(input, test)`: `test` occurs as a
case-insensitive substring of `input`. -/
def icontains (input test : Str) : Bool :=
  containsSub (lowerStr test) (lowerStr input)

/-- `HookContext::executableBlacklisted(lpApplicationName, lpCommandLine)`
(hookcontext.cpp:219-246).  `blacklist` is the contents of
`m_Parameters->processBlacklist`; a null `LPCWSTR` argument is `none`.
The first loop sets `blacklisted` when some blacklist item is a
case-insensitive suffix of the application name, the second when some item
occurs case-insensitively in the command line; the result is their
disjunction. -/
def executableBlacklisted (blacklist : List Str)
    (lpApplicationName lpCommandLine : Option Str) : Bool :=
  let fromApp :=
    match lpApplicationName with
    | some appName => blacklist.any (fun item => iends_with appName item)
    | none => false
  let fromCmd :=
    match lpCommandLine with
    | some cmdLine => blacklist.any (fun item => icontains cmdLine item)
    | none => false
  fromApp || fromCmd

theorem containsSub_iff (small big : Str) :
    containsSub small big = true ↔ small <:+: big := by
  induction big with
  | nil =>
    simp [containsSub, List.isEmpty_iff, List.infix_nil]
  | cons c rest ih =>
    simp [containsSub, List.infix_cons_iff, ih]

/-- C1: `executableBlacklisted(appName, commandLine)` is true iff some
blacklist entry is a case-insensitive suffix of `appName` or some entry
occurs as a case-insensitive substring of `commandLine`; a null argument
contributes no match on its side. -/
theorem executableBlacklisted_iff (blacklist : List Str)
    (lpApplicationName lpCommandLine : Option Str) :
    executableBlacklisted blacklist lpApplicationName lpCommandLine = true ↔
      ((∃ appName item, lpApplicationName = some appName ∧ item ∈ blacklist ∧
          lowerStr item <:+ lowerStr appName) ∨
       (∃ cmdLine item, lpCommandLine = some cmdLine ∧ item ∈ blacklist ∧
          lowerStr item <:+: lowerStr cmdLine)) := by
  cases lpApplicationName with
  | none =>
    cases lpCommandLine with
    | none => simp [executableBlacklisted]
    | some cmdLine =>
      simp [executableBlacklisted, icontains, containsSub_iff]
  | some appName =>
    cases lpCommandLine with
    | none =>
      simp [executableBlacklisted, iends_with]
    | some cmdLine =>
      simp [executableBlacklisted, iends_with, icontains, containsSub_iff]

/-! ### Shared-memory segments, attach and detach (C2, C3)

The configuration segment is named `params.instanceName` and is opened or
created by the `HookContext` constructor (hookcontext.cpp:92); the two tree
segments are named `currentSHMName` / `currentInverseSHMName`
(hookcontext.cpp:94-95).  `SegmentState` records the shared `userCount`
(inside `SharedParameters`) and whether each of the three named segments is
currently linked in the OS namespace. -/

structure SegmentState where
  userCount : Nat
  configLinked : Bool
  treeLinked : Bool
  inverseTreeLinked : Bool
deriving DecidableEq

/-- Member-initializer effect of the `HookContext` constructor
(hookcontext.cpp:92-95): the configuration segment is opened or created
(`bi::open_or_create`) and the two tree segments are opened or created, so
all three are linked afterwards; `userCount` is untouched here. -/
def openSegments (s : SegmentState) : SegmentState :=
  { s with configLinked := true, treeLinked := true, inverseTreeLinked := true }

/-- Shared-state effect of a successful `HookContext` construction
(hookcontext.cpp:91-115): segments opened by the member initializers, then
`++m_Parameters->userCount`. -/
def hookAttach (s : SegmentState) : SegmentState :=
  let s1 := openSegments s
  { s1 with userCount := s1.userCount + 1 }

/-- Modelled from the spec: "on zero, unlink all three segments".  The two
tree segments are owned by the `m_Tree` / `m_InverseTree` members whose
destructor (declared outside this file set, in the shared tree container)
removes their named segments when the last user detaches. -/
def unlinkTreeSegments (s : SegmentState) : SegmentState :=
  { s with treeLinked := false, inverseTreeLinked := false }

/-- `HookContext::~HookContext` (hookcontext.cpp:122-134): decrement
`userCount`; when it reaches zero, `bi::shared_memory_object::remove`
unlinks the configuration segment (named `instanceName`), and the tree
member destructors unlink the two tree segments (`unlinkTreeSegments`). -/
def hookDetach (s : SegmentState) : SegmentState :=
  if s.userCount - 1 = 0 then
    unlinkTreeSegments { s with userCount := 0, configLinked := false }
  else
    { s with userCount := s.userCount - 1 }

/-- An attach or detach event on one shared instance. -/
inductive CtxOp where
  | attach : CtxOp
  | detach : CtxOp
deriving DecidableEq

/-- Run a sequence of attach/detach events from a state.  A detach with no
attached user cannot occur (each destructor belongs to a context whose
construction incremented the count), so it yields `none`. -/
def runOps : SegmentState → List CtxOp → Option SegmentState
  | s, [] => some s
  | s, CtxOp.attach :: rest => runOps (hookAttach s) rest
  | s, CtxOp.detach :: rest =>
      if s.userCount = 0 then none else runOps (hookDetach s) rest

/-- Number of attach events in a trace. -/
def numAttaches (ops : List CtxOp) : Nat :=
  ops.countP (fun op => match op with | CtxOp.attach => true | CtxOp.detach => false)

/-- Number of detach events in a trace. -/
def numDetaches (ops : List CtxOp) : Nat :=
  ops.countP (fun op => match op with | CtxOp.attach => false | CtxOp.detach => true)

/-- State before any process attached: no users, no segment linked. -/
def initSegState : SegmentState := ⟨0, false, false, false⟩

/-- A linked segment implies at least one attached user. -/
def SegInv (s : SegmentState) : Prop :=
  (s.configLinked = true → 0 < s.userCount) ∧
  (s.treeLinked = true → 0 < s.userCount) ∧
  (s.inverseTreeLinked = true → 0 < s.userCount)

theorem segInv_attach (s : SegmentState) : SegInv (hookAttach s) := by
  refine ⟨fun _ => ?_, fun _ => ?_, fun _ => ?_⟩ <;>
    simp [hookAttach, openSegments]

theorem segInv_detach (s : SegmentState) : SegInv (hookDetach s) := by
  unfold hookDetach
  by_cases h0 : s.userCount - 1 = 0
  · simp only [h0, if_pos]
    exact ⟨fun hc => by simp [unlinkTreeSegments] at hc,
           fun hc => by simp [unlinkTreeSegments] at hc,
           fun hc => by simp [unlinkTreeSegments] at hc⟩
  · simp only [h0, if_neg, ite_false]
    exact ⟨fun _ => Nat.pos_of_ne_zero h0, fun _ => Nat.pos_of_ne_zero h0,
           fun _ => Nat.pos_of_ne_zero h0⟩

theorem runOps_inv (ops : List CtxOp) (s s' : SegmentState)
    (hinv : SegInv s) (hrun : runOps s ops = some s') : SegInv s' := by
  induction ops generalizing s with
  | nil => simp [runOps] at hrun; exact hrun ▸ hinv
  | cons op rest ih =>
    cases op with
    | attach => exact ih (hookAttach s) (segInv_attach s) hrun
    | detach =>
      simp only [runOps] at hrun
      by_cases h0 : s.userCount = 0
      · simp [h0] at hrun
      · simp only [h0, if_neg, ite_false] at hrun
        exact ih (hookDetach s) (segInv_detach s) hrun

theorem runOps_count (ops : List CtxOp) (s s' : SegmentState)
    (hrun : runOps s ops = some s') :
    s'.userCount + numDetaches ops = s.userCount + numAttaches ops := by
  induction ops generalizing s with
  | nil =>
    simp [runOps] at hrun
    simp [hrun, numAttaches, numDetaches]
  | cons op rest ih =>
    cases op with
    | attach =>
      have h := ih (hookAttach s) hrun
      simp only [hookAttach, openSegments] at h
      simp [numAttaches, numDetaches, List.countP_cons] at h ⊢
      omega
    | detach =>
      simp only [runOps] at hrun
      by_cases h0 : s.userCount = 0
      · simp [h0] at hrun
      · simp only [h0, if_neg, ite_false] at hrun
        have h := ih (hookDetach s) hrun
        have hdc : (hookDetach s).userCount = s.userCount - 1 := by
          unfold hookDetach
          by_cases h1 : s.userCount - 1 = 0 <;> simp [h1, unlinkTreeSegments]
        rw [hdc] at h
        simp [numAttaches, numDetaches, List.countP_cons] at h ⊢
        omega

/-- C2: every attach increments the shared `userCount` by one and every
detach decrements it by one; a detach that brings `userCount` to zero
unlinks the configuration segment and the two tree segments; consequently
after any balanced interleaving of N attaches and N detaches, starting from
a fresh instance, `userCount` is zero and all three segments — in
particular the configuration segment — are unlinked. -/
theorem hookContext_refcount_unlinks (ops : List CtxOp) (s : SegmentState)
    (hrun : runOps initSegState ops = some s)
    (hbal : numAttaches ops = numDetaches ops) :
    (∀ t : SegmentState, (hookAttach t).userCount = t.userCount + 1) ∧
    (∀ t : SegmentState, 0 < t.userCount →
        (hookDetach t).userCount = t.userCount - 1) ∧
    (∀ t : SegmentState, 0 < t.userCount → (hookDetach t).userCount = 0 →
        (hookDetach t).configLinked = false ∧
        (hookDetach t).treeLinked = false ∧
        (hookDetach t).inverseTreeLinked = false) ∧
    s.userCount = 0 ∧ s.configLinked = false ∧ s.treeLinked = false ∧
    s.inverseTreeLinked = false := by
  have hcount := runOps_count ops initSegState s hrun
  have huc : s.userCount = 0 := by
    simp only [initSegState] at hcount
    omega
  have hinv : SegInv s := by
    refine runOps_inv ops initSegState s ?_ hrun
    exact ⟨fun hc => by simp [initSegState] at hc,
           fun hc => by simp [initSegState] at hc,
           fun hc => by simp [initSegState] at hc⟩
  refine ⟨fun t => by simp [hookAttach, openSegments],
          fun t ht => ?_, fun t ht h0 => ?_, huc, ?_, ?_, ?_⟩
  · unfold hookDetach
    by_cases h1 : t.userCount - 1 = 0 <;> simp [h1, unlinkTreeSegments]
  · unfold hookDetach at h0 ⊢
    by_cases h1 : t.userCount - 1 = 0
    · simp [h1, unlinkTreeSegments]
    · simp [h1, unlinkTreeSegments] at h0
  · cases hc : s.configLinked
    · rfl
    · exact absurd (hinv.1 hc) (by simp [huc])
  · cases hc : s.treeLinked
    · rfl
    · exact absurd (hinv.2.1 hc) (by simp [huc])
  · cases hc : s.inverseTreeLinked
    · rfl
    · exact absurd (hinv.2.2 hc) (by simp [huc])

/-- Witness for C2 at the concrete trace [attach, detach]. -/
theorem hookContext_refcount_unlinks_witness :
    SegmentState.userCount ⟨0, false, false, false⟩ = 0 ∧
    SegmentState.configLinked ⟨0, false, false, false⟩ = false := by
  have h := hookContext_refcount_unlinks [CtxOp.attach, CtxOp.detach]
    ⟨0, false, false, false⟩ (by decide) (by decide)
  exact ⟨h.2.2.2.1, h.2.2.2.2.1⟩

/-! ### Per-process singleton (C3) -/

/-- Errors thrown by the `HookContext` constructor: the singleton check
(hookcontext.cpp:99-101) and the tree-segment check (hookcontext.cpp:111-114). -/
inductive AttachError where
  | duplicateInstantiation : AttachError
  | shmNotFound : AttachError
deriving DecidableEq

/-- Per-process state: whether `HookContext::s_Instance` (hookcontext.cpp:39)
is already set, plus the shared segment state. -/
structure ProcessState where
  hasInstance : Bool
  shared : SegmentState
deriving DecidableEq

/-- `HookContext::HookContext` (hookcontext.cpp:91-115) as seen by
`CreateHookContext`.  The member initializers open the three segments; the
body then throws `"singleton duplicate instantiation"` when `s_Instance`
is already set (before touching `userCount`), otherwise increments
`userCount`, publishes `s_Instance`, and finally fails with `"shm not
found"` when the tree segment handle is null (`treeValid = false`). -/
def createHookContext (ps : ProcessState) (treeValid : Bool) :
    Except AttachError ProcessState :=
  let sh := openSegments ps.shared
  if ps.hasInstance then
    Except.error AttachError.duplicateInstantiation
  else
    let sh2 := { sh with userCount := sh.userCount + 1 }
    if treeValid then
      Except.ok { hasInstance := true, shared := sh2 }
    else
      Except.error AttachError.shmNotFound

/-- C3: when a `HookContext` instance already exists in the process, a
second construction fails with the duplicate-instantiation error and never
returns a context. -/
theorem createHookContext_duplicate (ps : ProcessState) (treeValid : Bool)
    (h : ps.hasInstance = true) :
    createHookContext ps treeValid
      = Except.error AttachError.duplicateInstantiation := by
  simp [createHookContext, h]

/-- Witness for C3 at a concrete process state with an existing instance. -/
theorem createHookContext_duplicate_witness :
    createHookContext ⟨true, ⟨1, true, true, true⟩⟩ true
      = Except.error AttachError.duplicateInstantiation :=
  createHookContext_duplicate ⟨true, ⟨1, true, true, true⟩⟩ true rfl

/-! ### Deletion and fake-directory trackers (C4, C8, C9) -/

/-- Modelled from the spec: `deletedFileTracker` and `fakeDirectoryTracker`
are declared in hookcontext.h (not part of this file set) as interprocess
maps "fromVirtualPath → toRealPath" with unique keys; `emplace` inserts a
pair only when the key is absent, `find` returns the entry with the given
key, and `erase(key)` removes that entry.  A tracker is modelled as an
association list with unique keys; `trackerEmplace` is `emplace`. -/
def trackerEmplace (t : List (Str × Str)) (k v : Str) : List (Str × Str) :=
  match t.lookup k with
  | some _ => t
  | none => (k, v) :: t

/-- `map::find(key)`, as the stored value when present. -/
def trackerFind (t : List (Str × Str)) (k : Str) : Option Str :=
  t.lookup k

/-- `map::erase(key)`: remove the entry with the given key. -/
def trackerErase (t : List (Str × Str)) (k : Str) : List (Str × Str) :=
  t.filter (fun p => !(p.1 == k))

/-- `HookContext::addDeletedFile` (hookcontext.cpp:274-288): emplace the
pair `(fromPath, toPath)` into the deleted-file tracker. -/
def addDeletedFile (t : List (Str × Str)) (fromPath toPath : Str) :
    List (Str × Str) :=
  trackerEmplace t fromPath toPath

/-- `HookContext::existsDeletedFile` (hookcontext.cpp:290-302): true iff
`find(fromPath)` is not `end()`. -/
def existsDeletedFile (t : List (Str × Str)) (fromPath : Str) : Bool :=
  (trackerFind t fromPath).isSome

/-- `HookContext::forgetDeletedFile` (hookcontext.cpp:304-312): erase the
entry; the returned flag is the erase count as a boolean. -/
def forgetDeletedFile (t : List (Str × Str)) (fromPath : Str) :
    List (Str × Str) × Bool :=
  (trackerErase t fromPath, (trackerFind t fromPath).isSome)

/-- `HookContext::lookupDeletedFile` (hookcontext.cpp:314-328): the stored
real path when the entry exists, else the default-constructed (empty)
string. -/
def lookupDeletedFile (t : List (Str × Str)) (fromPath : Str) : Str :=
  match trackerFind t fromPath with
  | some toPath => toPath
  | none => []

/-- `HookContext::addFakeDirectory` (hookcontext.cpp:330-344). -/
def addFakeDirectory (t : List (Str × Str)) (fromPath toPath : Str) :
    List (Str × Str) :=
  trackerEmplace t fromPath toPath

/-- `HookContext::existsFakeDirectory` (hookcontext.cpp:346-358). -/
def existsFakeDirectory (t : List (Str × Str)) (fromPath : Str) : Bool :=
  (trackerFind t fromPath).isSome

/-- `HookContext::forgetFakeDirectory` (hookcontext.cpp:360-368). -/
def forgetFakeDirectory (t : List (Str × Str)) (fromPath : Str) :
    List (Str × Str) × Bool :=
  (trackerErase t fromPath, (trackerFind t fromPath).isSome)

/-- `HookContext::lookupFakeDirectory` (hookcontext.cpp:370-384). -/
def lookupFakeDirectory (t : List (Str × Str)) (fromPath : Str) : Str :=
  match trackerFind t fromPath with
  | some toPath => toPath
  | none => []

theorem lookup_trackerErase (t : List (Str × Str)) (k : Str) :
    (trackerErase t k).lookup k = none := by
  induction t with
  | nil => simp [trackerErase]
  | cons p rest ih =>
    obtain ⟨a, b⟩ := p
    by_cases hk : a = k
    · simpa [trackerErase, hk] using ih
    · have hka : (k == a) = false := by simp [Ne.symm hk]
      simp only [trackerErase, List.filter_cons] at ih ⊢
      simp [hk, hka, List.lookup_cons, ih]

/-- C4 counterexample: with `"a"` already tracked as deleted with real path
`"b"` (and as a fake directory likewise), a second add with real path `"c"`
leaves the lookups at `"b"`, not `"c"` — the claimed law
`lookupDeletedFile(v) = r` after `addDeletedFile(v, r)` fails. -/
theorem tracker_add_lookup_counterexample :
    (lookupDeletedFile
        (addDeletedFile (addDeletedFile [] ['a'] ['b']) ['a'] ['c']) ['a']
      ≠ ['c']) ∧
    (lookupFakeDirectory
        (addFakeDirectory (addFakeDirectory [] ['a'] ['b']) ['a'] ['c']) ['a']
      ≠ ['c']) := by
  decide

/-- C4 (amended): after `addDeletedFile(v, r)`, `existsDeletedFile(v)` is
true unconditionally; `lookupDeletedFile(v)` returns `r` provided `v` was
not already tracked, and returns the previously stored real path when it
was; `forgetDeletedFile(v)` makes exists false unconditionally; the
fake-directory tracker satisfies the same laws. -/
theorem tracker_add_exists_lookup_forget (tD tF : List (Str × Str)) (v r : Str) :
    existsDeletedFile (addDeletedFile tD v r) v = true ∧
    (existsDeletedFile tD v = false →
      lookupDeletedFile (addDeletedFile tD v r) v = r) ∧
    (existsDeletedFile tD v = true →
      lookupDeletedFile (addDeletedFile tD v r) v = lookupDeletedFile tD v) ∧
    existsDeletedFile (forgetDeletedFile tD v).1 v = false ∧
    existsFakeDirectory (addFakeDirectory tF v r) v = true ∧
    (existsFakeDirectory tF v = false →
      lookupFakeDirectory (addFakeDirectory tF v r) v = r) ∧
    (existsFakeDirectory tF v = true →
      lookupFakeDirectory (addFakeDirectory tF v r) v = lookupFakeDirectory tF v) ∧
    existsFakeDirectory (forgetFakeDirectory tF v).1 v = false := by
  have hexists : ∀ t : List (Str × Str),
      ((trackerEmplace t v r).lookup v).isSome = true := by
    intro t
    cases h : t.lookup v with
    | none => simp [trackerEmplace, h]
    | some x => simp [trackerEmplace, h]
  have hfresh : ∀ t : List (Str × Str), t.lookup v = none →
      (trackerEmplace t v r).lookup v = some r := by
    intro t h
    simp [trackerEmplace, h]
  have htracked : ∀ t : List (Str × Str), (t.lookup v).isSome = true →
      trackerEmplace t v r = t := by
    intro t h
    rcases Option.isSome_iff_exists.mp h with ⟨x, hx⟩
    simp [trackerEmplace, hx]
  refine ⟨?_, fun hf => ?_, fun ht => ?_, ?_, ?_, fun hf => ?_, fun ht => ?_, ?_⟩
  · simpa [existsDeletedFile, addDeletedFile, trackerFind] using hexists tD
  · have hnone : tD.lookup v = none := by
      simpa [existsDeletedFile, trackerFind, Option.isSome_iff_exists] using hf
    simp [lookupDeletedFile, addDeletedFile, trackerFind, hfresh tD hnone]
  · have hsome : (tD.lookup v).isSome = true := by
      simpa [existsDeletedFile, trackerFind] using ht
    simp [lookupDeletedFile, addDeletedFile, trackerFind, htracked tD hsome]
  · simp [existsDeletedFile, forgetDeletedFile, trackerFind, lookup_trackerErase]
  · simpa [existsFakeDirectory, addFakeDirectory, trackerFind] using hexists tF
  · have hnone : tF.lookup v = none := by
      simpa [existsFakeDirectory, trackerFind, Option.isSome_iff_exists] using hf
    simp [lookupFakeDirectory, addFakeDirectory, trackerFind, hfresh tF hnone]
  · have hsome : (tF.lookup v).isSome = true := by
      simpa [existsFakeDirectory, trackerFind] using ht
    simp [lookupFakeDirectory, addFakeDirectory, trackerFind, htracked tF hsome]
  · simp [existsFakeDirectory, forgetFakeDirectory, trackerFind,
          lookup_trackerErase]

/-- Witness for the amended C4: fresh add on the empty tracker, and add plus
forget on a tracker where `"a"` is already tracked. -/
theorem tracker_add_exists_lookup_forget_witness :
    existsDeletedFile (addDeletedFile [] ['a'] ['b']) ['a'] = true ∧
    lookupDeletedFile (addDeletedFile [] ['a'] ['b']) ['a'] = ['b'] ∧
    lookupDeletedFile (addDeletedFile [(['a'], ['b'])] ['a'] ['c']) ['a']
      = lookupDeletedFile [(['a'], ['b'])] ['a'] ∧
    existsDeletedFile (forgetDeletedFile [(['a'], ['b'])] ['a']).1 ['a']
      = false :=
  have h1 := tracker_add_exists_lookup_forget [] [] ['a'] ['b']
  have h2 := tracker_add_exists_lookup_forget [(['a'], ['b'])]
    [(['a'], ['b'])] ['a'] ['c']
  ⟨h1.1, h1.2.1 rfl, h2.2.2.1 rfl, h2.2.2.2.1⟩

/-- C8: an add on an already-tracked virtual path never overwrites: the
tracker is unchanged and lookup still returns the previously stored real
path, for both trackers. -/
theorem tracker_add_no_overwrite (tD tF : List (Str × Str)) (v r1 r2 : Str)
    (hD : existsDeletedFile tD v = true) (hD2 : lookupDeletedFile tD v = r1)
    (hF : existsFakeDirectory tF v = true) (hF2 : lookupFakeDirectory tF v = r1)
    (hne : r2 ≠ r1) :
    addDeletedFile tD v r2 = tD ∧
    lookupDeletedFile (addDeletedFile tD v r2) v = r1 ∧
    addFakeDirectory tF v r2 = tF ∧
    lookupFakeDirectory (addFakeDirectory tF v r2) v = r1 := by
  have hsomeD : tD.lookup v = some (lookupDeletedFile tD v) := by
    simp only [existsDeletedFile, trackerFind, Option.isSome_iff_exists] at hD
    obtain ⟨x, hx⟩ := hD
    simp [lookupDeletedFile, trackerFind, hx]
  have hsomeF : tF.lookup v = some (lookupFakeDirectory tF v) := by
    simp only [existsFakeDirectory, trackerFind, Option.isSome_iff_exists] at hF
    obtain ⟨x, hx⟩ := hF
    simp [lookupFakeDirectory, trackerFind, hx]
  rw [hD2] at hsomeD
  rw [hF2] at hsomeF
  refine ⟨?_, ?_, ?_, ?_⟩ <;>
    simp [addDeletedFile, addFakeDirectory, trackerEmplace, hsomeD, hsomeF,
          lookupDeletedFile, lookupFakeDirectory, trackerFind]

/-- Witness for C8 on a singleton tracker. -/
theorem tracker_add_no_overwrite_witness :
    addDeletedFile [(['a'], ['b'])] ['a'] ['c'] = [(['a'], ['b'])] ∧
    lookupDeletedFile (addDeletedFile [(['a'], ['b'])] ['a'] ['c']) ['a']
      = ['b'] :=
  have h := tracker_add_no_overwrite [(['a'], ['b'])] [(['a'], ['b'])]
    ['a'] ['b'] ['c'] rfl rfl rfl rfl (by decide)
  ⟨h.1, h.2.1⟩

/-- C9: looking up a virtual path absent from a tracker returns the empty
string rather than an error, and that result coincides with the lookup of
an entry whose stored real path is empty — the two cases are
indistinguishable by lookup. -/
theorem tracker_lookup_absent_empty (tD tF : List (Str × Str)) (v : Str)
    (hD : existsDeletedFile tD v = false)
    (hF : existsFakeDirectory tF v = false) :
    lookupDeletedFile tD v = [] ∧
    lookupFakeDirectory tF v = [] ∧
    existsDeletedFile (addDeletedFile tD v []) v = true ∧
    lookupDeletedFile (addDeletedFile tD v []) v = lookupDeletedFile tD v ∧
    existsFakeDirectory (addFakeDirectory tF v []) v = true ∧
    lookupFakeDirectory (addFakeDirectory tF v []) v = lookupFakeDirectory tF v := by
  have hD' : tD.lookup v = none := by
    simpa [existsDeletedFile, trackerFind, Option.isSome_iff_exists] using hD
  have hF' : tF.lookup v = none := by
    simpa [existsFakeDirectory, trackerFind, Option.isSome_iff_exists] using hF
  refine ⟨?_, ?_, ?_, ?_, ?_, ?_⟩ <;>
    simp [lookupDeletedFile, lookupFakeDirectory, existsDeletedFile,
          existsFakeDirectory, addDeletedFile, addFakeDirectory,
          trackerEmplace, trackerFind, hD', hF']

/-- Witness for C9 on a tracker not containing the queried path. -/
theorem tracker_lookup_absent_empty_witness :
    lookupDeletedFile [(['a'], ['b'])] ['c'] = [] ∧
    lookupFakeDirectory [(['a'], ['b'])] ['c'] = [] :=
  have h := tracker_lookup_absent_empty [(['a'], ['b'])] [(['a'], ['b'])]
    ['c'] rfl rfl
  ⟨h.1, h.2.1⟩

/-! ### Read/write access guards (C5) -/

/-- Events written to the logger. -/
inductive LogEvent where
  | lockTimeout : LogEvent
deriving DecidableEq

/-- The guard handed back by `readAccess` / `writeAccess` (the `ConstPtr` /
`Ptr` with its unlock deleter); `lockHeld` records whether the wait
actually acquired the mutex. -/
structure AccessGuard where
  lockHeld : Bool
deriving DecidableEq

/-- Modelled from the spec: `m_Mutex.wait(timeoutMs)` (the cross-process
recursive mutex, declared outside this file set) blocks until the mutex is
free or `timeoutMs` milliseconds elapsed; `requiredMs` is how long the
current holder keeps the mutex.  On timeout the LockTimeout event is
logged and the wait returns without the lock. -/
def mutexWait (timeoutMs requiredMs : Nat) : Bool × List LogEvent :=
  if requiredMs ≤ timeoutMs then (true, [])
  else (false, [LogEvent.lockTimeout])

/-- `HookContext::readAccess` (hookcontext.cpp:156-163): wait at most 200 ms
on the mutex, then return the guard unconditionally — the wait's outcome is
not consulted. -/
def readAccess (requiredMs : Nat) : AccessGuard × List LogEvent :=
  let w := mutexWait 200 requiredMs
  ({ lockHeld := w.1 }, w.2)

/-- `HookContext::writeAccess` (hookcontext.cpp:165-171): identical wait and
unconditional guard return. -/
def writeAccess (requiredMs : Nat) : AccessGuard × List LogEvent :=
  let w := mutexWait 200 requiredMs
  ({ lockHeld := w.1 }, w.2)

/-- C5: `readAccess` and `writeAccess` wait at most 200 ms: the mutex is
acquired exactly when it frees up within 200 ms; when the wait times out a
guard is still returned to the caller (without the lock) and the timeout
event is logged. -/
theorem access_timeout_best_effort (requiredMs : Nat) (h : 200 < requiredMs) :
    readAccess requiredMs = ({ lockHeld := false }, [LogEvent.lockTimeout]) ∧
    writeAccess requiredMs = ({ lockHeld := false }, [LogEvent.lockTimeout]) ∧
    (∀ fastMs, fastMs ≤ 200 →
      readAccess fastMs = ({ lockHeld := true }, []) ∧
      writeAccess fastMs = ({ lockHeld := true }, [])) := by
  have hnot : ¬ requiredMs ≤ 200 := by omega
  refine ⟨?_, ?_, fun fastMs hfast => ⟨?_, ?_⟩⟩ <;>
    simp [readAccess, writeAccess, mutexWait, hnot, *]

/-- Witness for C5 at a wait of 201 ms. -/
theorem access_timeout_best_effort_witness :
    readAccess 201 = ({ lockHeld := false }, [LogEvent.lockTimeout]) ∧
    writeAccess 201 = ({ lockHeld := false }, [LogEvent.lockTimeout]) :=
  have h := access_timeout_best_effort 201 (by decide)
  ⟨h.1, h.2.1⟩

/-! ### Configuration seed truncation (C6) -/

/-- The `USVFSParameters` record filled by `USVFSInitParametersInt`.  Its
four string members are fixed character buffers; `bufCap` below is the
buffer capacity in characters. -/
structure USVFSParameters where
  instanceName : Str
  currentSHMName : Str
  currentInverseSHMName : Str
  debugMode : Bool
  logLevel : Nat
  crashDumpsType : Nat
  crashDumpsPath : Str
deriving DecidableEq

/-- Modelled from the spec: the four string fields of `USVFSParameters` are
fixed buffers of at most N bytes (the struct lives in usvfsparameters.h,
outside this file set); `strncpy_s(dest, src, _TRUNCATE)` copies at most
`bufCap - 1` characters into a `bufCap`-sized buffer, truncating an
over-long source instead of failing. -/
def strncpyTruncate (bufCap : Nat) (src : Str) : Str :=
  src.take (bufCap - 1)

/-- `usvfs::USVFSInitParametersInt` (hookcontext.cpp:72-88): fills the
record field by field; each of the four strings goes through `strncpy_s`
with `_TRUNCATE`. -/
def USVFSInitParametersInt (bufCap : Nat)
    (instanceName currentSHMName currentInverseSHMName : Str)
    (debugMode : Bool) (logLevel crashDumpsType : Nat)
    (crashDumpsPath : Str) : USVFSParameters :=
  { debugMode := debugMode
    logLevel := logLevel
    crashDumpsType := crashDumpsType
    instanceName := strncpyTruncate bufCap instanceName
    currentSHMName := strncpyTruncate bufCap currentSHMName
    currentInverseSHMName := strncpyTruncate bufCap currentInverseSHMName
    crashDumpsPath := strncpyTruncate bufCap crashDumpsPath }

theorem strncpyTruncate_spec (bufCap : Nat) (src : Str) :
    strncpyTruncate bufCap src <+: src ∧
    (strncpyTruncate bufCap src).length ≤ bufCap - 1 ∧
    (bufCap - 1 ≤ src.length →
      (strncpyTruncate bufCap src).length = bufCap - 1) := by
  refine ⟨⟨src.drop (bufCap - 1), List.take_append_drop (bufCap - 1) src⟩,
          ?_, fun hlong => ?_⟩
  · simp [strncpyTruncate]
  · simp [strncpyTruncate, Nat.min_eq_left hlong]

/-- C6: initialisation of `USVFSParameters` never rejects its input: every
seed string is truncated to the buffer capacity — each stored string is a
prefix of the seed of length at most `bufCap - 1` (exactly `bufCap - 1`
when the seed is over-long) — and the non-string fields are stored
unchanged. -/
theorem usvfsInitParameters_truncates (bufCap : Nat)
    (seedInstance seedSHM seedInverse seedDumpPath : Str)
    (debugMode : Bool) (logLevel crashDumpsType : Nat) :
    ((USVFSInitParametersInt bufCap seedInstance seedSHM seedInverse
        debugMode logLevel crashDumpsType seedDumpPath).instanceName <+:
          seedInstance ∧
      (USVFSInitParametersInt bufCap seedInstance seedSHM seedInverse
        debugMode logLevel crashDumpsType seedDumpPath).instanceName.length
          ≤ bufCap - 1 ∧
      (bufCap - 1 ≤ seedInstance.length →
        (USVFSInitParametersInt bufCap seedInstance seedSHM seedInverse
          debugMode logLevel crashDumpsType seedDumpPath).instanceName.length
            = bufCap - 1)) ∧
    ((USVFSInitParametersInt bufCap seedInstance seedSHM seedInverse
        debugMode logLevel crashDumpsType seedDumpPath).currentSHMName <+:
          seedSHM ∧
      (bufCap - 1 ≤ seedSHM.length →
        (USVFSInitParametersInt bufCap seedInstance seedSHM seedInverse
          debugMode logLevel crashDumpsType seedDumpPath).currentSHMName.length
            = bufCap - 1)) ∧
    ((USVFSInitParametersInt bufCap seedInstance seedSHM seedInverse
        debugMode logLevel crashDumpsType seedDumpPath).currentInverseSHMName
          <+: seedInverse ∧
      (bufCap - 1 ≤ seedInverse.length →
        (USVFSInitParametersInt bufCap seedInstance seedSHM seedInverse
          debugMode logLevel crashDumpsType
          seedDumpPath).currentInverseSHMName.length = bufCap - 1)) ∧
    ((USVFSInitParametersInt bufCap seedInstance seedSHM seedInverse
        debugMode logLevel crashDumpsType seedDumpPath).crashDumpsPath <+:
          seedDumpPath ∧
      (bufCap - 1 ≤ seedDumpPath.length →
        (USVFSInitParametersInt bufCap seedInstance seedSHM seedInverse
          debugMode logLevel crashDumpsType seedDumpPath).crashDumpsPath.length
            = bufCap - 1)) ∧
    (USVFSInitParametersInt bufCap seedInstance seedSHM seedInverse
      debugMode logLevel crashDumpsType seedDumpPath).debugMode = debugMode ∧
    (USVFSInitParametersInt bufCap seedInstance seedSHM seedInverse
      debugMode logLevel crashDumpsType seedDumpPath).logLevel = logLevel ∧
    (USVFSInitParametersInt bufCap seedInstance seedSHM seedInverse
      debugMode logLevel crashDumpsType seedDumpPath).crashDumpsType
        = crashDumpsType := by
  refine ⟨⟨(strncpyTruncate_spec bufCap seedInstance).1,
           (strncpyTruncate_spec bufCap seedInstance).2.1,
           (strncpyTruncate_spec bufCap seedInstance).2.2⟩,
          ⟨(strncpyTruncate_spec bufCap seedSHM).1,
           (strncpyTruncate_spec bufCap seedSHM).2.2⟩,
          ⟨(strncpyTruncate_spec bufCap seedInverse).1,
           (strncpyTruncate_spec bufCap seedInverse).2.2⟩,
          ⟨(strncpyTruncate_spec bufCap seedDumpPath).1,
           (strncpyTruncate_spec bufCap seedDumpPath).2.2⟩,
          rfl, rfl, rfl⟩

/-- Witness for C6: a four-character seed into a three-character buffer is
stored as its two-character prefix. -/
theorem usvfsInitParameters_truncates_witness :
    (USVFSInitParametersInt 3 ['a', 'b', 'c', 'd'] [] [] true 0 0
      []).instanceName.length = 2 :=
  (usvfsInitParameters_truncates 3 ['a', 'b', 'c', 'd'] [] [] [] true 0
    0).1.2.2 (by decide)

/-! ### Forced libraries (C7) -/

/-- One entry of `m_Parameters->forcedLibraries`. -/
structure ForcedLibrary where
  processName : Str
  libraryPath : Str
deriving DecidableEq

/-- `HookContext::forceLoadLibrary` (hookcontext.cpp:248-254): `push_front`
of the new pair onto the forced-library list. -/
def forceLoadLibrary (libs : List ForcedLibrary)
    (processName libraryPath : Str) : List ForcedLibrary :=
  { processName := processName, libraryPath := libraryPath } :: libs

/-- `HookContext::clearLibraryForceLoads` (hookcontext.cpp:256-259). -/
def clearLibraryForceLoads (_libs : List ForcedLibrary) :
    List ForcedLibrary := []

/-- `stricmp(a, b) == 0`: case-insensitive string equality. -/
def stricmpEq (a b : Str) : Bool :=
  lowerStr a == lowerStr b

/-- `HookContext::librariesToForceLoad` (hookcontext.cpp:261-272): walk the
forced-library list in order and collect `libraryPath` of every entry whose
`processName` compares equal to the argument under `stricmp`. -/
def librariesToForceLoad (libs : List ForcedLibrary) (processName : Str) :
    List Str :=
  libs.foldl
    (fun results library =>
      if stricmpEq processName library.processName then
        results ++ [library.libraryPath]
      else results)
    []

theorem librariesToForceLoad_foldl (libs : List ForcedLibrary)
    (processName : Str) (acc : List Str) :
    libs.foldl
        (fun results library =>
          if stricmpEq processName library.processName then
            results ++ [library.libraryPath]
          else results)
        acc
      = acc ++ (libs.filter
          (fun library => stricmpEq processName library.processName)).map
            ForcedLibrary.libraryPath := by
  induction libs generalizing acc with
  | nil => simp
  | cons library rest ih =>
    by_cases hmatch : stricmpEq processName library.processName
    · simp [hmatch, ih, List.filter_cons]
    · simp [hmatch, ih, List.filter_cons]

/-- C7: `librariesToForceLoad(processName)` returns exactly the library
paths of the registered entries whose process name equals the argument
after case folding — an exact case-insensitive comparison, so a library is
returned iff some registered pair carries a process name whose lowering is
equal (not merely a prefix, suffix or substring) to the lowering of the
argument. -/
theorem librariesToForceLoad_exact_ci (libs : List ForcedLibrary)
    (processName : Str) :
    librariesToForceLoad libs processName
      = (libs.filter
          (fun library => stricmpEq processName library.processName)).map
            ForcedLibrary.libraryPath ∧
    (∀ path, path ∈ librariesToForceLoad libs processName ↔
      ∃ library, library ∈ libs ∧
        lowerStr library.processName = lowerStr processName ∧
        library.libraryPath = path) := by
  have hfold := librariesToForceLoad_foldl libs processName []
  constructor
  · simpa [librariesToForceLoad] using hfold
  · intro path
    rw [librariesToForceLoad, hfold]
    simp only [List.nil_append, List.mem_map, List.mem_filter]
    constructor
    · rintro ⟨library, ⟨hmem, heq⟩, hpath⟩
      refine ⟨library, hmem, ?_, hpath⟩
      simp only [stricmpEq] at heq
      exact (beq_iff_eq.mp heq).symm
    · rintro ⟨library, hmem, heq, hpath⟩
      refine ⟨library, ⟨hmem, ?_⟩, hpath⟩
      simp only [stricmpEq]
      exact beq_iff_eq.mpr heq.symm

/-! ### Process registration (C10) -/

/-- `HookContext::registerProcess` (hookcontext.cpp:201-204):
`processList.insert(pid)` on the shared set of process identifiers. -/
def registerProcess (processList : List Nat) (pid : Nat) : List Nat :=
  if processList.contains pid then processList else pid :: processList

/-- `HookContext::unregisterCurrentProcess` (hookcontext.cpp:386-390):
`processList.erase(processList.find(pid))` with no check that the find
succeeded.  Erasing the end iterator (pid absent) is undefined behaviour,
modelled as `none`; otherwise the found entry is removed. -/
def unregisterCurrentProcess (processList : List Nat) (pid : Nat) :
    Option (List Nat) :=
  if processList.contains pid then some (processList.erase pid) else none

/-- C10: `unregisterCurrentProcess` has the unchecked precondition that the
current process id is in `processList`: when it holds, exactly that one
entry is removed (its count drops by one, every other id's count is
unchanged); when it fails, the unguarded erase reaches the undefined
branch. -/
theorem unregisterCurrentProcess_spec (processList : List Nat) (pid : Nat) :
    (processList.contains pid = true →
      unregisterCurrentProcess processList pid
          = some (processList.erase pid) ∧
        (processList.erase pid).count pid = processList.count pid - 1 ∧
        ∀ other, other ≠ pid →
          (processList.erase pid).count other = processList.count other) ∧
    (processList.contains pid = false →
      unregisterCurrentProcess processList pid = none) := by
  constructor
  · intro hmem
    have hmem' : pid ∈ processList := by simpa using hmem
    refine ⟨by simp [unregisterCurrentProcess, hmem'],
            List.count_erase_self pid processList,
            fun other hne => List.count_erase_of_ne hne processList⟩
  · intro habs
    have habs' : pid ∉ processList := by simpa using habs
    simp [unregisterCurrentProcess, habs']

/-- Witness for C10 on the singleton process list `[5]`. -/
theorem unregisterCurrentProcess_spec_witness :
    unregisterCurrentProcess [5] 5 = some (List.erase [5] 5) ∧
    unregisterCurrentProcess [5] 7 = none :=
  ⟨((unregisterCurrentProcess_spec [5] 5).1 rfl).1,
   (unregisterCurrentProcess_spec [5] 7).2 rfl⟩

end USVFS
